import Mathlib

/-!
Shallow embedding of the EMS frontend core: the leave-list reconciliation
component (`src/components/leave/LeaveList.jsx`) and the report export
engine (`src/components/reports/Reports.jsx`).  JavaScript strings are
modelled as lists of characters, absent (`undefined` or `null`) values as
`Option`, and JavaScript truthiness of strings (the empty string is falsy)
is modelled explicitly.
-/

set_option maxRecDepth 100000

/-- JavaScript strings are modelled as lists of characters. -/
abbrev Str := List Char

/-- Converts a Lean string literal into the character-list model. -/
def str (s : String) : Str := s.toList

/-- Truthiness of a possibly absent JavaScript string: `undefined`, `null`
and the empty string are falsy. -/
def truthy : Option Str → Bool
  | none => false
  | some s => !s.isEmpty

/-- Models the JavaScript idiom `x || d` on string values: absent or empty
values fall back to the default. -/
def orDefault (o : Option Str) (d : Str) : Str :=
  match o with
  | some s => if s.isEmpty then d else s
  | none => d

/-- Models the JavaScript idiom `x || 0` on numeric count fields. -/
def orZero (o : Option Nat) : Nat := o.getD 0

/-- Decimal rendering of a natural number, as JavaScript template-literal
interpolation renders a numeric value. -/
def natStr (n : Nat) : Str := (Nat.repr n).toList

/-- Models `toLowerCase` (faithful on the ASCII data this app handles). -/
def lower (s : Str) : Str := s.map Char.toLower

/-- Models `Array.prototype.join(sep)` on a list of strings. -/
def joinSep (sep : Str) : List Str → Str
  | [] => []
  | [a] => a
  | a :: b :: t => a ++ sep ++ joinSep sep (b :: t)

/-- Wraps one cell in double quotes, as the template quoting in the three
CSV generators does.  Embedded double quotes are not escaped. -/
def quoteCell (c : Str) : Str := '"' :: c ++ ['"']

/-- Serialization of one CSV row: each cell individually quoted, cells
joined with commas. -/
def csvRow (row : List Str) : Str := joinSep [','] (row.map quoteCell)

/-- Serialization of the whole table: serialized rows joined by newline. -/
def csvDoc (rows : List (List Str)) : Str := joinSep ['\n'] (rows.map csvRow)

/-- Extends the first fragment of a split result by one character. -/
def consHead (c : Char) : List Str → List Str
  | [] => [[c]]
  | r :: rs => (c :: r) :: rs

/-- Splits a string at every newline character (row recovery). -/
def splitNL : Str → List Str
  | [] => [[]]
  | c :: rest => if c = '\n' then [] :: splitNL rest else consHead c (splitNL rest)

/-- Splits a string at each leftmost non-overlapping occurrence of the
quote-comma-quote cell delimiter. -/
def splitQCQ : Str → List Str
  | [] => [[]]
  | '"' :: ',' :: '"' :: rest2 => [] :: splitQCQ rest2
  | c :: rest => consHead c (splitQCQ rest)

/-- Removes the opening quote of the first cell and the closing quote of
the last cell of a serialized row. -/
def stripOuterQuotes (s : Str) : Str := (s.drop 1).dropLast

/-- Parses one serialized row back into its cell values. -/
def parseRow (s : Str) : List Str := splitQCQ (stripOuterQuotes s)

/-- Parses a serialized document: rows are split on newline, cells on the
quoted-comma delimiter, and the outer quotes of each row are removed. -/
def parseCSV (doc : Str) : List (List Str) := (splitNL doc).map parseRow

theorem splitNL_noNewline (s : Str) (h : '\n' ∉ s) : splitNL s = [s] := by
  induction s with
  | nil => rfl
  | cons c rest ih =>
    have hc : c ≠ '\n' := fun hc => h (hc ▸ List.mem_cons_self c rest)
    have ih' := ih (fun hm => h (List.mem_cons_of_mem c hm))
    simp [splitNL, hc, ih', consHead]

theorem splitNL_append (a t : Str) (h : '\n' ∉ a) :
    splitNL (a ++ '\n' :: t) = a :: splitNL t := by
  induction a with
  | nil => simp [splitNL]
  | cons c a' ih =>
    have hc : c ≠ '\n' := fun hc => h (hc ▸ List.mem_cons_self c a')
    have ih' := ih (fun hm => h (List.mem_cons_of_mem c hm))
    simp [splitNL, hc, ih', consHead]

theorem splitNL_joinSep (rows : List Str) (hne : rows ≠ [])
    (h : ∀ r ∈ rows, '\n' ∉ r) :
    splitNL (joinSep ['\n'] rows) = rows := by
  induction rows with
  | nil => exact absurd rfl hne
  | cons a rest ih =>
    cases rest with
    | nil => exact splitNL_noNewline a (h a (by simp))
    | cons b t =>
      have step : joinSep ['\n'] (a :: b :: t)
          = a ++ '\n' :: joinSep ['\n'] (b :: t) := by
        simp [joinSep]
      rw [step, splitNL_append a _ (h a (by simp)),
        ih (by simp) (fun r hr => h r (List.mem_cons_of_mem a hr))]

theorem splitQCQ_nil : splitQCQ [] = [[]] := rfl

theorem splitQCQ_cons_ne (c : Char) (rest : Str) (h : c ≠ '"') :
    splitQCQ (c :: rest) = consHead c (splitQCQ rest) := by
  rcases rest with _ | ⟨d, rest2⟩
  · simp [splitQCQ, h]
  · rcases rest2 with _ | ⟨e, rest3⟩
    · simp [splitQCQ, h]
    · simp [splitQCQ, h]

theorem splitQCQ_sep (t : Str) :
    splitQCQ ('"' :: ',' :: '"' :: t) = [] :: splitQCQ t := rfl

theorem splitQCQ_noQuote (s : Str) (h : '"' ∉ s) : splitQCQ s = [s] := by
  induction s with
  | nil => exact splitQCQ_nil
  | cons c rest ih =>
    have hc : c ≠ '"' := fun hc => h (hc ▸ List.mem_cons_self c rest)
    have ih' := ih (fun hm => h (List.mem_cons_of_mem c hm))
    rw [splitQCQ_cons_ne c rest hc, ih']
    rfl

theorem splitQCQ_append (a t : Str) (h : '"' ∉ a) :
    splitQCQ (a ++ '"' :: ',' :: '"' :: t) = a :: splitQCQ t := by
  induction a with
  | nil => simpa using splitQCQ_sep t
  | cons c a' ih =>
    have hc : c ≠ '"' := fun hc => h (hc ▸ List.mem_cons_self c a')
    have ih' := ih (fun hm => h (List.mem_cons_of_mem c hm))
    rw [List.cons_append, splitQCQ_cons_ne c _ hc, ih']
    rfl

theorem splitQCQ_joinSep (cells : List Str) (hne : cells ≠ [])
    (h : ∀ c ∈ cells, '"' ∉ c) :
    splitQCQ (joinSep ['"', ',', '"'] cells) = cells := by
  induction cells with
  | nil => exact absurd rfl hne
  | cons a rest ih =>
    cases rest with
    | nil => exact splitQCQ_noQuote a (h a (by simp))
    | cons b t =>
      have step : joinSep ['"', ',', '"'] (a :: b :: t)
          = a ++ '"' :: ',' :: '"' :: joinSep ['"', ',', '"'] (b :: t) := by
        simp [joinSep]
      rw [step, splitQCQ_append a _ (h a (by simp)),
        ih (by simp) (fun c hc => h c (List.mem_cons_of_mem a hc))]

theorem joinSep_quoted (row : List Str) (hne : row ≠ []) :
    joinSep [','] (row.map quoteCell)
      = '"' :: (joinSep ['"', ',', '"'] row ++ ['"']) := by
  induction row with
  | nil => exact absurd rfl hne
  | cons a rest ih =>
    cases rest with
    | nil => simp [joinSep, quoteCell]
    | cons b t =>
      have ih' := ih (by simp)
      simp only [List.map_cons] at ih' ⊢
      rw [joinSep, ih']
      have step : joinSep ['"', ',', '"'] (a :: b :: t)
          = a ++ ['"', ',', '"'] ++ joinSep ['"', ',', '"'] (b :: t) := by
        simp [joinSep]
      rw [step, quoteCell]
      simp

theorem parseRow_csvRow (row : List Str) (hne : row ≠ [])
    (h : ∀ c ∈ row, '"' ∉ c) :
    parseRow (csvRow row) = row := by
  unfold parseRow stripOuterQuotes csvRow
  rw [joinSep_quoted row hne]
  simp only [List.drop_succ_cons, List.drop_zero, List.dropLast_concat]
  exact splitQCQ_joinSep row hne h

theorem csvRow_no_newline (row : List Str) (h : ∀ c ∈ row, '\n' ∉ c) :
    '\n' ∉ csvRow row := by
  unfold csvRow
  induction row with
  | nil => simp [joinSep]
  | cons a rest ih =>
    cases rest with
    | nil =>
      simp only [List.map_cons, List.map_nil, joinSep, quoteCell]
      intro hm
      rcases List.mem_cons.1 hm with hq | hm2
      · exact absurd hq (by decide)
      rcases List.mem_append.1 hm2 with hma | hq2
      · exact h a (by simp) hma
      · exact absurd (List.mem_singleton.1 hq2) (by decide)
    | cons b t =>
      have ih' := ih (fun c hc => h c (List.mem_cons_of_mem a hc))
      simp only [List.map_cons, joinSep] at ih' ⊢
      intro hm
      rcases List.mem_append.1 hm with hm1 | hm2
      · rcases List.mem_append.1 hm1 with hmq | hmc
        · rcases List.mem_cons.1 hmq with hq | hm3
          · exact absurd hq (by decide)
          rcases List.mem_append.1 hm3 with hma | hq2
          · exact h a (by simp) hma
          · exact absurd (List.mem_singleton.1 hq2) (by decide)
        · exact absurd (List.mem_singleton.1 hmc) (by decide)
      · exact ih' hm2

theorem parseCSV_csvDoc (rows : List (List Str)) (hrows : rows ≠ [])
    (hne : ∀ r ∈ rows, r ≠ [])
    (h : ∀ r ∈ rows, ∀ c ∈ r, '"' ∉ c ∧ '\n' ∉ c) :
    parseCSV (csvDoc rows) = rows := by
  unfold parseCSV csvDoc
  rw [splitNL_joinSep (rows.map csvRow) (by simpa using hrows)
    (by
      intro r hr
      rcases List.mem_map.1 hr with ⟨row, hrow, hEq⟩
      exact hEq ▸ csvRow_no_newline row (fun c hc => (h row hrow c hc).2))]
  rw [List.map_map]
  calc rows.map (parseRow ∘ csvRow)
      = rows.map id := List.map_congr_left (fun r hr => by
        exact parseRow_csvRow r (hne r hr) (fun c hc => (h r hr c hc).1))
    _ = rows := List.map_id rows

/-- Department object embedded in an employee reference (only its `name`
field is read by the generators). -/
structure Department where
  name : Option Str
deriving DecidableEq

/-- Employee reference embedded in leave and report records; every field
may be absent on the wire. -/
structure EmployeeRef where
  firstName : Option Str
  lastName : Option Str
  email : Option Str
  department : Option Department
deriving DecidableEq

/-- Raw report record as delivered by the service: one dynamic shape whose
fields are read selectively by each kind-specific generator, every field
possibly absent (mirroring the untyped JSON the component receives). -/
structure JsonRec where
  employee : Option EmployeeRef := none
  present : Option Nat := none
  absent : Option Nat := none
  late : Option Nat := none
  total : Option Nat := none
  approved : Option Nat := none
  pending : Option Nat := none
  rejected : Option Nat := none
  department : Option Str := none
  positions : Option (List (Str × Nat)) := none
deriving DecidableEq

/-- Name cell: first and last name each defaulted to N/A, joined by one
space, as the template in the generators renders them. -/
def nameCell (e : Option EmployeeRef) : Str :=
  orDefault (e.bind EmployeeRef.firstName) (str "N/A") ++ str " " ++
    orDefault (e.bind EmployeeRef.lastName) (str "N/A")

/-- Email cell with the N/A default. -/
def emailCell (e : Option EmployeeRef) : Str :=
  orDefault (e.bind EmployeeRef.email) (str "N/A")

/-- Department cell: the optional-chained department name with the N/A
default. -/
def deptCell (e : Option EmployeeRef) : Str :=
  orDefault (e.bind fun x => x.department.bind Department.name) (str "N/A")

/-- Numeric count cell: absent counts render as 0. -/
def numCell (o : Option Nat) : Str := natStr (orZero o)

/-- Two-digit rendering of a value below 100, as the fractional part of a
fixed two-decimal rendering. -/
def pad2 (k : Nat) : Str := if k < 10 then '0' :: natStr k else natStr k

/-- Rounding of the rational 10000 times p over t to the nearest integer,
halves away from zero: the number of hundredths of a percentage point
printed by a two-decimal fixed rendering of the exact rate.  This models
the JavaScript expression computing the rate times 100 and calling
toFixed(2); the binary floating-point value is modelled as the exact
rational it approximates. -/
def rateHundredths (p t : Nat) : Nat := (20000 * p + t) / (2 * t)

/-- Fixed two-decimal rendering of the attendance rate for defined counts. -/
def toFixed2Rate (p t : Nat) : Str :=
  natStr (rateHundredths p t / 100) ++ str "." ++ pad2 (rateHundredths p t % 100)

/-- Attendance-rate string before the percent sign is appended: the guard
reads the raw total (absent or zero total short-circuits to 0.00), and a
division with an absent present count is a NaN that toFixed renders as the
string NaN. -/
def rateStr (present total : Option Nat) : Str :=
  match total with
  | some t =>
      if 0 < t then
        match present with
        | some p => toFixed2Rate p t
        | none => str "NaN"
      else str "0.00"
  | none => str "0.00"

/-- Attendance-rate cell including the trailing percent sign. -/
def rateCellStr (present total : Option Nat) : Str :=
  rateStr present total ++ str "%"

/-- Header row of the attendance report. -/
def attendanceHeader : List Str :=
  [str "Employee Name", str "Email", str "Department", str "Present Days",
    str "Absent Days", str "Late Days", str "Total Days", str "Attendance Rate"]

/-- Column projection of one attendance record. -/
def attendanceRow (r : JsonRec) : List Str :=
  [nameCell r.employee, emailCell r.employee, deptCell r.employee,
    numCell r.present, numCell r.absent, numCell r.late, numCell r.total,
    rateCellStr r.present r.total]

/-- Attendance table: header plus one row per record. -/
def attendanceTable (report : List JsonRec) : List (List Str) :=
  attendanceHeader :: report.map attendanceRow

/-- Serialized attendance CSV document. -/
def generateAttendanceCSV (report : List JsonRec) : Str :=
  csvDoc (attendanceTable report)

/-- Header row of the leave report. -/
def leaveHeader : List Str :=
  [str "Employee Name", str "Email", str "Department", str "Approved Leaves",
    str "Pending Leaves", str "Rejected Leaves", str "Total Leaves"]

/-- Column projection of one leave report record. -/
def leaveRow (r : JsonRec) : List Str :=
  [nameCell r.employee, emailCell r.employee, deptCell r.employee,
    numCell r.approved, numCell r.pending, numCell r.rejected, numCell r.total]

/-- Leave table: header plus one row per record. -/
def leaveTable (report : List JsonRec) : List (List Str) :=
  leaveHeader :: report.map leaveRow

/-- Serialized leave CSV document. -/
def generateLeaveCSV (report : List JsonRec) : Str :=
  csvDoc (leaveTable report)

/-- Positions cell of the department report: each position-count pair
rendered as name, colon, space, count, pairs joined by comma-space; an
absent positions object renders as N/A. -/
def positionsCell (ps : Option (List (Str × Nat))) : Str :=
  match ps with
  | some entries =>
      joinSep (str ", ") (entries.map fun pc => pc.1 ++ str ": " ++ natStr pc.2)
  | none => str "N/A"

/-- Header row of the department report. -/
def departmentHeader : List Str :=
  [str "Department", str "Total Employees", str "Positions"]

/-- Column projection of one department record. -/
def departmentRow (r : JsonRec) : List Str :=
  [orDefault r.department (str "N/A"), numCell r.total, positionsCell r.positions]

/-- Department table: header plus one row per record. -/
def departmentTable (report : List JsonRec) : List (List Str) :=
  departmentHeader :: report.map departmentRow

/-- Serialized department CSV document. -/
def generateDepartmentCSV (report : List JsonRec) : Str :=
  csvDoc (departmentTable report)

/-- Boolean test that `pre` starts the string `s` (modelling the prefix
scan underlying substring search). -/
def startsWith : Str → Str → Bool
  | [], _ => true
  | _ :: _, [] => false
  | a :: as, b :: bs => a = b && startsWith as bs

/-- Models `String.prototype.includes`: the needle occurs as a contiguous
substring of the haystack. -/
def containsSub (hay needle : Str) : Bool :=
  if startsWith needle hay then true
  else
    match hay with
    | [] => false
    | _ :: t => containsSub t needle

theorem startsWith_self_append (n t : Str) : startsWith n (n ++ t) = true := by
  induction n with
  | nil => rfl
  | cons a as ih => simp [startsWith, ih]

theorem containsSub_of_startsWith (hay needle : Str)
    (h : startsWith needle hay = true) : containsSub hay needle = true := by
  cases hay with
  | nil => simp [containsSub, h]
  | cons c t => simp [containsSub, h]

theorem containsSub_append_left (x rest n : Str)
    (h : containsSub rest n = true) : containsSub (x ++ rest) n = true := by
  induction x with
  | nil => simpa using h
  | cons c cs ih =>
    rw [List.cons_append, containsSub]
    by_cases hp : startsWith n (c :: (cs ++ rest)) = true
    · simp [hp]
    · simp [hp, ih]

theorem containsSub_sandwich (x n y : Str) :
    containsSub (x ++ n ++ y) n = true := by
  rw [List.append_assoc]
  exact containsSub_append_left x (n ++ y) n
    (containsSub_of_startsWith _ _ (startsWith_self_append n y))

/-- Outcome of the report request as observed by `handleGenerateReport`:
either a parsed response body (success flag and optional record array), or
a thrown transport error carrying an optional HTTP status, an optional
error code and an optional service message. -/
inductive ReportFetch
  | resp (success : Bool) (report : Option (List JsonRec))
  | thrown (status : Option Nat) (code : Option Str) (message : Option Str)

/-- Component state left by one report-generation attempt: the error
message and the download artifact (filename and document) if one was
produced and offered to the user. -/
structure ReportState where
  error : Option Str
  download : Option (Str × Str)
deriving DecidableEq

/-- Message set when the service responds successfully with a missing or
empty record collection. -/
def noDataMsg (ty : Str) (month year : Nat) : Str :=
  str "No data available for " ++ ty ++ str " report in " ++
    natStr month ++ str "/" ++ natStr year

/-- Error message chosen for a thrown report-request failure, following
the status-code chain of the catch block. -/
def reportErrorMessage (status : Option Nat) (code message : Option Str) : Str :=
  if status = some 401 then str "Authentication failed. Please login again."
  else if status = some 403 then
    str "Access denied. You don't have permission to generate reports."
  else if status = some 404 then
    str "Report endpoint not found. Please check the server configuration."
  else if status = some 500 then str "Server error. Please try again later."
  else if code = some (str "ECONNREFUSED") then
    str "Cannot connect to server. Please check if the backend is running."
  else orDefault message (str "Failed to generate report. Please try again.")

/-- Attendance report filename for the selected year and month. -/
def attendanceFilename (year month : Nat) : Str :=
  str "attendance_report_" ++ natStr year ++ str "_" ++ natStr month ++ str ".csv"

/-- Leave report filename for the selected year and month. -/
def leaveFilename (year month : Nat) : Str :=
  str "leave_report_" ++ natStr year ++ str "_" ++ natStr month ++ str ".csv"

/-- One report-generation attempt, as a function of the selected type,
month, year and the observed request outcome. -/
def handleGenerateReport (ty : Str) (month year : Nat) (out : ReportFetch) :
    ReportState :=
  match out with
  | .resp true report =>
      match report with
      | none => ⟨some (noDataMsg ty month year), none⟩
      | some rs =>
          if rs.isEmpty then ⟨some (noDataMsg ty month year), none⟩
          else if ty = str "attendance" then
            ⟨none, some (attendanceFilename year month, generateAttendanceCSV rs)⟩
          else if ty = str "leave" then
            ⟨none, some (leaveFilename year month, generateLeaveCSV rs)⟩
          else if ty = str "department" then
            ⟨none, some (str "department_report.csv", generateDepartmentCSV rs)⟩
          else ⟨some (str "Invalid report type"), none⟩
  | .resp false _ => ⟨some (str "Failed to generate report"), none⟩
  | .thrown status code message =>
      ⟨some (reportErrorMessage status code message), none⟩

/-- Leave record as delivered by the service; the employee reference and
all string fields may be absent or empty. -/
structure Leave where
  id : Str
  employee : Option EmployeeRef
  ltype : Option Str
  startDate : Option Str
  endDate : Option Str
  reason : Option Str
  leaveStatus : Option Str
deriving DecidableEq

/-- Component state of the leave list. -/
structure LeaveListState where
  leaves : List Leave
  loading : Bool
  error : Option Str
  notice : Option (Str × Nat)
  dataIssues : List Leave
deriving DecidableEq

/-- Initial component state (the useState initial values). -/
def initLeaveListState : LeaveListState :=
  ⟨[], true, none, none, []⟩

/-- Outcome of the leave-list request: a parsed response body, or a thrown
transport error carrying the optional service message. -/
inductive LeavesFetch
  | resp (success : Bool) (leaves : List Leave)
  | thrown (message : Option Str)

/-- One fetch of the leave collection: clears the error, and on a
successful response records the leaves, recomputes the integrity-warning
records (those without an employee object), on a failed response or a
thrown error records a message; the loading flag is cleared in every
case.  The model is a total function, so no outcome escapes as an
uncaught fault. -/
def fetchLeaves (st : LeaveListState) (out : LeavesFetch) : LeaveListState :=
  match out with
  | .resp true ls =>
      let invalidLeaves := ls.filter fun l => l.employee.isNone
      { st with
          error := none
          loading := false
          leaves := ls
          dataIssues := if invalidLeaves.length > 0 then invalidLeaves else [] }
  | .resp false _ =>
      { st with
          error := some (str "Failed to load leave requests")
          loading := false }
  | .thrown m =>
      { st with
          error := some (orDefault m (str "Failed to load leave requests"))
          loading := false }

/-- Outcome of the cleanup request. -/
inductive CleanupFetch
  | resp (success : Bool) (deletedCount : Nat)
  | thrown (message : Option Str)

/-- Success notice recorded after a cleanup that removed the given number
of records. -/
def cleanupSuccessMsg (n : Nat) : Str :=
  str "Cleaned up " ++ natStr n ++ str " orphaned leave records"

/-- Result of one cleanup attempt: the updated state and whether a re-list
was triggered. -/
structure CleanupResult where
  state : LeaveListState
  refetch : Bool
deriving DecidableEq

/-- One cleanup attempt: on a successful response records the success
notice (auto-cleared after 5000 milliseconds), empties the warning records
and triggers a re-list; on a response with the success flag false it does
nothing beyond clearing the loading flag; on a thrown error records an
error message and leaves the warning records untouched. -/
def handleCleanup (st : LeaveListState) (out : CleanupFetch) : CleanupResult :=
  match out with
  | .resp true n =>
      ⟨{ st with
          notice := some (cleanupSuccessMsg n, 5000)
          dataIssues := []
          loading := false }, true⟩
  | .resp false _ => ⟨{ st with loading := false }, false⟩
  | .thrown m =>
      ⟨{ st with
          error := some (orDefault m (str "Failed to clean up orphaned records"))
          loading := false }, false⟩

/-- Search string of one displayable leave: the five searched fields with
absent values defaulted to the empty string, joined with single spaces and
lowercased. -/
def leaveSearchStr (e : EmployeeRef) (l : Leave) : Str :=
  lower (joinSep (str " ")
    [e.firstName.getD [], e.lastName.getD [], e.email.getD [],
      l.ltype.getD [], l.reason.getD []])

/-- Display predicate of the leave list: skips records without an
employee object carrying a first name, skips records missing the type or
the reason, and keeps the rest exactly when the lowercased search text
occurs in the record's search string. -/
def displayPred (search : Str) (leave : Leave) : Bool :=
  match leave.employee with
  | none => false
  | some e =>
      if !truthy e.firstName then false
      else if !truthy leave.ltype || !truthy leave.reason then false
      else containsSub (leaveSearchStr e leave) (lower search)

/-- Display sequence of the leave list: the fetched collection filtered by
the display predicate. -/
def filteredLeaves (leaves : List Leave) (search : Str) : List Leave :=
  leaves.filter (displayPred search)

/-- Validity of a leave record per the data-model invariant: the employee
reference is a non-null object with a truthy first name, and the type and
the reason are both non-empty.  Stated from the specification's words, to
be compared with the code's display filter. -/
def specValidLeave (l : Leave) : Bool :=
  (match l.employee with
    | some e => truthy e.firstName
    | none => false) && truthy l.ltype && truthy l.reason

/-- Plain concatenation (no separator) of the five searched fields, as a
literal reading of the claim's search-match description. -/
def plainConcatFields (l : Leave) : Str :=
  (l.employee.bind EmployeeRef.firstName).getD [] ++
    (l.employee.bind EmployeeRef.lastName).getD [] ++
    (l.employee.bind EmployeeRef.email).getD [] ++
    l.ltype.getD [] ++ l.reason.getD []

/-- Space-separated concatenation of the five searched fields, the
amended reading of the claim. -/
def spaceConcatFields (l : Leave) : Str :=
  (l.employee.bind EmployeeRef.firstName).getD [] ++ str " " ++
    (l.employee.bind EmployeeRef.lastName).getD [] ++ str " " ++
    (l.employee.bind EmployeeRef.email).getD [] ++ str " " ++
    l.ltype.getD [] ++ str " " ++ l.reason.getD []

/-- Well-behaved table contents: no cell contains a double quote or a
newline character. -/
def cleanCells (rows : List (List Str)) : Prop :=
  ∀ r ∈ rows, ∀ c ∈ r, '"' ∉ c ∧ '\n' ∉ c

instance (rows : List (List Str)) : Decidable (cleanCells rows) := by
  unfold cleanCells
  infer_instance

theorem attendanceTable_rows_ne (report : List JsonRec) :
    ∀ r ∈ attendanceTable report, r ≠ [] := by
  intro r hr
  rcases List.mem_cons.1 hr with h | h
  · subst h
    simp [attendanceHeader]
  · rcases List.mem_map.1 h with ⟨x, _, hEq⟩
    subst hEq
    simp [attendanceRow]

theorem leaveTable_rows_ne (report : List JsonRec) :
    ∀ r ∈ leaveTable report, r ≠ [] := by
  intro r hr
  rcases List.mem_cons.1 hr with h | h
  · subst h
    simp [leaveHeader]
  · rcases List.mem_map.1 h with ⟨x, _, hEq⟩
    subst hEq
    simp [leaveRow]

theorem departmentTable_rows_ne (report : List JsonRec) :
    ∀ r ∈ departmentTable report, r ≠ [] := by
  intro r hr
  rcases List.mem_cons.1 hr with h | h
  · subst h
    simp [departmentHeader]
  · rcases List.mem_map.1 h with ⟨x, _, hEq⟩
    subst hEq
    simp [departmentRow]

/-- C2 (counterexample).  The claim promises that embedded double quotes
are guarded and that parsing the document back recovers every cell for all
cell contents including those containing commas or double quotes.  The
generators wrap cells in quotes without escaping embedded quotes, so a
first name containing a quote-comma-quote sequence produces a document
whose parse does not recover the original cells. -/
theorem csv_roundtrip_counterexample :
    parseCSV (generateAttendanceCSV
        [{ employee := some ⟨some (str "a\",\"b"), none, none, none⟩,
           total := some 4 }])
      ≠ attendanceTable
        [{ employee := some ⟨some (str "a\",\"b"), none, none, none⟩,
           total := some 4 }] := by
  decide

/-- C2 (amended).  For every report record collection, the generated
document is the kind-specific header row plus one quoted row per record,
rows joined by newline, and parsing the document back (splitting rows on
newline and cells on the quoted-comma delimiter) recovers the same cell
values for every field — including fields defaulted to N/A or 0 — for all
cell contents that contain no double-quote and no newline character;
embedded commas are guarded, embedded double quotes are not escaped. -/
theorem csv_roundtrip (report : List JsonRec) :
    (cleanCells (attendanceTable report) →
      parseCSV (generateAttendanceCSV report) = attendanceTable report) ∧
    (cleanCells (leaveTable report) →
      parseCSV (generateLeaveCSV report) = leaveTable report) ∧
    (cleanCells (departmentTable report) →
      parseCSV (generateDepartmentCSV report) = departmentTable report) := by
  refine ⟨fun h => ?_, fun h => ?_, fun h => ?_⟩
  · exact parseCSV_csvDoc _ (by simp [attendanceTable])
      (attendanceTable_rows_ne report) h
  · exact parseCSV_csvDoc _ (by simp [leaveTable])
      (leaveTable_rows_ne report) h
  · exact parseCSV_csvDoc _ (by simp [departmentTable])
      (departmentTable_rows_ne report) h

/-- C2 (witness).  The round trip evaluated on a concrete one-record
attendance report whose cells are quote-free and newline-free. -/
theorem csv_roundtrip_witness :
    cleanCells (attendanceTable
      [{ employee := some ⟨some (str "John"), some (str "Doe"),
           some (str "jdoe@x.com"), some ⟨some (str "Eng")⟩⟩,
         present := some 3, absent := some 1, late := some 0,
         total := some 4 }]) ∧
    parseCSV (generateAttendanceCSV
        [{ employee := some ⟨some (str "John"), some (str "Doe"),
             some (str "jdoe@x.com"), some ⟨some (str "Eng")⟩⟩,
           present := some 3, absent := some 1, late := some 0,
           total := some 4 }])
      = attendanceTable
        [{ employee := some ⟨some (str "John"), some (str "Doe"),
             some (str "jdoe@x.com"), some ⟨some (str "Eng")⟩⟩,
           present := some 3, absent := some 1, late := some 0,
           total := some 4 }] :=
  ⟨by decide,
    (csv_roundtrip
      [{ employee := some ⟨some (str "John"), some (str "Doe"),
           some (str "jdoe@x.com"), some ⟨some (str "Eng")⟩⟩,
         present := some 3, absent := some 1, late := some 0,
         total := some 4 }]).1 (by decide)⟩

/-- C4 (counterexample).  The claim says any absent numeric field is
treated as zero in every cell of the generated row, including the derived
attendance rate.  Treating an absent present count as zero with total 4
would render 0.00 percent, but the rate expression divides the absent
value directly, and the row renders the string NaN percent instead. -/
theorem report_defaults_counterexample :
    rateCellStr (some 0) (some 4) = str "0.00%" ∧
    (attendanceRow { present := none, total := some 4 })[7]?
      = some (str "NaN%") ∧
    str "NaN%" ≠ str "0.00%" := by
  refine ⟨by decide, by decide, by decide⟩

/-- C4 (amended).  Absent numeric fields render as zero in the plain count
cells of all three report kinds, and an absent total also renders the rate
cell as 0.00 percent; but an absent present count with a positive total
renders the rate cell as NaN percent (the division is not zero-defaulted).
Absent employee or department references render as literal N/A
placeholders — the combined name cell becomes the two-placeholder string —
and none of these renderings is the empty string; all cells are total
functions of the record, so no input crashes the generators. -/
theorem report_defaults :
    (nameCell none = str "N/A N/A" ∧ emailCell none = str "N/A" ∧
      deptCell none = str "N/A" ∧ numCell none = str "0" ∧
      rateCellStr none none = str "0.00%" ∧
      str "N/A" ≠ ([] : Str) ∧ str "N/A N/A" ≠ ([] : Str) ∧
      str "0" ≠ ([] : Str) ∧ str "0.00%" ≠ ([] : Str)) ∧
    (∀ e : EmployeeRef, e.department = none →
      deptCell (some e) = str "N/A") ∧
    (∀ t : Nat, 0 < t → rateCellStr none (some t) = str "NaN%") ∧
    (∀ p : Option Nat, rateCellStr p none = str "0.00%") ∧
    (∀ r : JsonRec, r.employee = none →
      (attendanceRow r).take 3 = [str "N/A N/A", str "N/A", str "N/A"] ∧
      (leaveRow r).take 3 = [str "N/A N/A", str "N/A", str "N/A"]) ∧
    (∀ r : JsonRec, r.department = none →
      (departmentRow r)[0]? = some (str "N/A")) ∧
    (∀ r : JsonRec, r.present = none →
      (attendanceRow r)[3]? = some (str "0")) ∧
    (∀ r : JsonRec, r.total = none →
      (attendanceRow r)[6]? = some (str "0") ∧
      (attendanceRow r)[7]? = some (str "0.00%") ∧
      (leaveRow r)[6]? = some (str "0") ∧
      (departmentRow r)[1]? = some (str "0")) := by
  refine ⟨by decide, ?_, ?_, ?_, ?_, ?_, ?_, ?_⟩
  · intro e he
    simp [deptCell, he, orDefault, str]
  · intro t ht
    simp only [rateCellStr, rateStr, ht, if_pos]
    decide
  · intro p
    cases p <;> rfl
  · intro r he
    refine ⟨?_, ?_⟩
    · show [nameCell r.employee, emailCell r.employee, deptCell r.employee] = _
      rw [he]
      decide
    · show [nameCell r.employee, emailCell r.employee, deptCell r.employee] = _
      rw [he]
      decide
  · intro r hd
    show some (orDefault r.department (str "N/A")) = _
    rw [hd]
    decide
  · intro r hp
    show some (numCell r.present) = _
    rw [hp]
    decide
  · intro r ht
    refine ⟨?_, ?_, ?_, ?_⟩
    · show some (numCell r.total) = _
      rw [ht]
      decide
    · show some (rateCellStr r.present r.total) = _
      rw [ht]
      cases r.present <;> rfl
    · show some (numCell r.total) = _
      rw [ht]
      decide
    · show some (numCell r.total) = _
      rw [ht]
      decide

/-- C4 (witness).  The amended facts evaluated at concrete records with
absent fields. -/
theorem report_defaults_witness :
    rateCellStr none (some 4) = str "NaN%" ∧
    (departmentRow { department := none })[0]? = some (str "N/A") ∧
    (attendanceRow { employee := none }).take 3
      = [str "N/A N/A", str "N/A", str "N/A"] :=
  ⟨report_defaults.2.2.1 4 (by decide),
    report_defaults.2.2.2.2.2.1 { department := none } rfl,
    (report_defaults.2.2.2.2.1 { employee := none } rfl).1⟩

/-- C5 (theorem).  The attendance-rate cell: an absent or zero total
renders 0.00 percent with no division fault, present 3 of total 4 renders
75.00 percent, the rate cell is the eighth cell of every attendance row,
and for every positive total the rendered cell is the two-decimal fixed
rendering with trailing percent sign of a hundredths count n that rounds
the exact rational rate, present over total times 100, to the nearest
hundredth (halves up): 2tn is at most 20000p + t, which is below
2t(n + 1).  The JavaScript double arithmetic is modelled as exact rational
arithmetic. -/
theorem attendance_rate_cell :
    (∀ p : Option Nat, rateCellStr p (some 0) = str "0.00%" ∧
      rateCellStr p none = str "0.00%") ∧
    rateCellStr (some 3) (some 4) = str "75.00%" ∧
    (∀ r : JsonRec, (attendanceRow r)[7]?
      = some (rateCellStr r.present r.total)) ∧
    (∀ p t : Nat, 0 < t →
      ∃ n : Nat,
        rateCellStr (some p) (some t)
          = natStr (n / 100) ++ (str "." ++ (pad2 (n % 100) ++ str "%")) ∧
        (pad2 (n % 100)).length = 2 ∧
        2 * t * n ≤ 20000 * p + t ∧
        20000 * p + t < 2 * t * (n + 1)) := by
  refine ⟨fun p => ⟨by cases p <;> rfl, by cases p <;> rfl⟩, by decide,
    fun r => rfl, fun p t ht => ?_⟩
  refine ⟨rateHundredths p t, ?_, ?_, ?_, ?_⟩
  · simp [rateCellStr, rateStr, ht, toFixed2Rate, List.append_assoc]
  · have hlt : rateHundredths p t % 100 < 100 := Nat.mod_lt _ (by omega)
    have hpad : ∀ k < 100, (pad2 k).length = 2 := by decide
    exact hpad _ hlt
  · have hdm := Nat.div_add_mod (20000 * p + t) (2 * t)
    unfold rateHundredths
    omega
  · have hdm := Nat.div_add_mod (20000 * p + t) (2 * t)
    have hmlt : (20000 * p + t) % (2 * t) < 2 * t := Nat.mod_lt _ (by omega)
    have hexp : 2 * t * ((20000 * p + t) / (2 * t) + 1)
        = 2 * t * ((20000 * p + t) / (2 * t)) + 2 * t := by ring
    unfold rateHundredths
    omega

/-- C5 (witness).  The general rendering applied at present 3, total 4. -/
theorem attendance_rate_cell_witness :
    (0 < 4) ∧
    ∃ n : Nat,
      rateCellStr (some 3) (some 4)
        = natStr (n / 100) ++ (str "." ++ (pad2 (n % 100) ++ str "%")) ∧
      (pad2 (n % 100)).length = 2 ∧
      2 * 4 * n ≤ 20000 * 3 + 4 ∧
      20000 * 3 + 4 < 2 * 4 * (n + 1) :=
  ⟨by decide, attendance_rate_cell.2.2.2 3 4 (by decide)⟩

theorem containsSub_mid (x n y : Str) : containsSub (x ++ (n ++ y)) n = true := by
  rw [← List.append_assoc]
  exact containsSub_sandwich x n y

theorem containsSub_last (x n : Str) : containsSub (x ++ n) n = true := by
  have h := containsSub_sandwich x n []
  simpa using h

/-- C6 (theorem).  A successful service response whose report collection
is absent or empty sets an error message that carries the requested kind,
month and year, and produces no downloadable artifact. -/
theorem report_no_data (ty : Str) (month year : Nat)
    (rep : Option (List JsonRec)) (h : rep = none ∨ rep = some []) :
    (handleGenerateReport ty month year (.resp true rep)).download = none ∧
    ∃ msg,
      (handleGenerateReport ty month year (.resp true rep)).error = some msg ∧
      containsSub msg ty = true ∧
      containsSub msg (natStr month) = true ∧
      containsSub msg (natStr year) = true := by
  have hstate : handleGenerateReport ty month year (.resp true rep)
      = ⟨some (noDataMsg ty month year), none⟩ := by
    rcases h with h | h <;> subst h <;> rfl
  rw [hstate]
  refine ⟨rfl, noDataMsg ty month year, rfl, ?_, ?_, ?_⟩
  · have hshape : noDataMsg ty month year
        = str "No data available for " ++
          (ty ++ (str " report in " ++ (natStr month ++ (str "/" ++ natStr year)))) := by
      simp [noDataMsg, List.append_assoc]
    rw [hshape]
    exact containsSub_mid _ _ _
  · have hshape : noDataMsg ty month year
        = (str "No data available for " ++ ty ++ str " report in ") ++
          (natStr month ++ (str "/" ++ natStr year)) := by
      simp [noDataMsg, List.append_assoc]
    rw [hshape]
    exact containsSub_mid _ _ _
  · simp only [noDataMsg]
    exact containsSub_last _ _

/-- C6 (witness).  The no-data outcome evaluated for a concrete attendance
request in May 2024 with an absent report collection. -/
theorem report_no_data_witness :
    (handleGenerateReport (str "attendance") 5 2024 (.resp true none)).download
      = none ∧
    ∃ msg,
      (handleGenerateReport (str "attendance") 5 2024 (.resp true none)).error
        = some msg ∧
      containsSub msg (str "attendance") = true ∧
      containsSub msg (natStr 5) = true ∧
      containsSub msg (natStr 2024) = true :=
  report_no_data (str "attendance") 5 2024 none (Or.inl rfl)

/-- C9 (theorem).  The user-facing message of every failed (thrown)
report-generation call is determined by the HTTP status of the failure:
401 maps to the authentication-expired message, 403 to the forbidden
message, 404 to the endpoint-missing message, 500 to the server-error
message, the connection-refused code to the backend-unreachable message,
and every other failure to the service payload's message when one is
present and non-empty, else the generic message; and the state left by a
thrown failure carries exactly that message and no artifact. -/
theorem report_error_mapping :
    (∀ c m, reportErrorMessage (some 401) c m
      = str "Authentication failed. Please login again.") ∧
    (∀ c m, reportErrorMessage (some 403) c m
      = str "Access denied. You don't have permission to generate reports.") ∧
    (∀ c m, reportErrorMessage (some 404) c m
      = str "Report endpoint not found. Please check the server configuration.") ∧
    (∀ c m, reportErrorMessage (some 500) c m
      = str "Server error. Please try again later.") ∧
    (∀ s m, s ≠ some 401 → s ≠ some 403 → s ≠ some 404 → s ≠ some 500 →
      reportErrorMessage s (some (str "ECONNREFUSED")) m
        = str "Cannot connect to server. Please check if the backend is running.") ∧
    (∀ s c msg, s ≠ some 401 → s ≠ some 403 → s ≠ some 404 → s ≠ some 500 →
      c ≠ some (str "ECONNREFUSED") → truthy msg = true →
      reportErrorMessage s c msg = msg.getD []) ∧
    (∀ s c msg, s ≠ some 401 → s ≠ some 403 → s ≠ some 404 → s ≠ some 500 →
      c ≠ some (str "ECONNREFUSED") → truthy msg = false →
      reportErrorMessage s c msg
        = str "Failed to generate report. Please try again.") ∧
    (∀ s c m ty month year,
      (handleGenerateReport ty month year (.thrown s c m)).error
        = some (reportErrorMessage s c m) ∧
      (handleGenerateReport ty month year (.thrown s c m)).download = none) := by
  refine ⟨fun c m => rfl, fun c m => rfl, fun c m => rfl, fun c m => rfl,
    ?_, ?_, ?_, fun s c m ty month year => ⟨rfl, rfl⟩⟩
  · intro s m h1 h2 h3 h4
    simp [reportErrorMessage, h1, h2, h3, h4]
  · intro s c msg h1 h2 h3 h4 hc hm
    rcases msg with _ | mstr
    · exact absurd hm (by simp [truthy])
    · have hne : mstr.isEmpty = false := by
        simpa [truthy] using hm
      simp [reportErrorMessage, h1, h2, h3, h4, hc, orDefault, hne]
  · intro s c msg h1 h2 h3 h4 hc hm
    rcases msg with _ | mstr
    · simp [reportErrorMessage, h1, h2, h3, h4, hc, orDefault]
    · have hne : mstr.isEmpty = true := by
        simpa [truthy] using hm
      simp [reportErrorMessage, h1, h2, h3, h4, hc, orDefault, hne]

/-- C9 (witness).  The mapping evaluated on a concrete statusless
connection-refused failure. -/
theorem report_error_mapping_witness :
    reportErrorMessage none (some (str "ECONNREFUSED")) none
      = str "Cannot connect to server. Please check if the backend is running." :=
  report_error_mapping.2.2.2.2.1 none none (by decide) (by decide)
    (by decide) (by decide)

/-- C10 (theorem).  A successful response with a non-empty record
collection for a kind outside the three known report kinds sets the
invalid-report-type error and produces no downloadable artifact. -/
theorem report_invalid_type (ty : Str) (month year : Nat) (rs : List JsonRec)
    (hne : rs ≠ []) (h1 : ty ≠ str "attendance") (h2 : ty ≠ str "leave")
    (h3 : ty ≠ str "department") :
    handleGenerateReport ty month year (.resp true (some rs))
      = ⟨some (str "Invalid report type"), none⟩ := by
  have hempty : rs.isEmpty = false := by
    cases rs with
    | nil => exact absurd rfl hne
    | cons a t => rfl
  simp [handleGenerateReport, hempty, h1, h2, h3]

/-- C10 (witness).  The invalid-kind outcome evaluated on a concrete
unknown kind with one record. -/
theorem report_invalid_type_witness :
    handleGenerateReport (str "custom") 1 2024 (.resp true (some [{}]))
      = ⟨some (str "Invalid report type"), none⟩ :=
  report_invalid_type (str "custom") 1 2024 [{}] (by decide) (by decide)
    (by decide) (by decide)

/-- Concrete fully valid leave record used by concrete evaluations. -/
def demoValidLeave : Leave :=
  ⟨str "a1",
    some ⟨some (str "John"), some (str "Doe"), some (str "jdoe@x.com"), none⟩,
    some (str "sick"), none, none, some (str "flu"), some (str "pending")⟩

/-- Concrete orphaned leave record (no employee object). -/
def demoOrphanLeave : Leave :=
  ⟨str "b1", none, some (str "sick"), none, none, some (str "x"), none⟩

/-- Concrete leave record whose employee object lacks a first name. -/
def demoNoNameLeave : Leave :=
  ⟨str "c1", some ⟨none, some (str "Doe"), some (str "d@x.com"), none⟩,
    some (str "sick"), none, none, some (str "flu"), none⟩

theorem leaveSearchStr_eq (l : Leave) (e : EmployeeRef)
    (h : l.employee = some e) :
    leaveSearchStr e l = lower (spaceConcatFields l) := by
  simp [leaveSearchStr, spaceConcatFields, joinSep, h, str, List.append_assoc]

theorem displayPred_eq (search : Str) (l : Leave) :
    displayPred search l
      = (specValidLeave l &&
          containsSub (lower (spaceConcatFields l)) (lower search)) := by
  rcases hemp : l.employee with _ | e
  · simp [displayPred, specValidLeave, hemp]
  · simp only [displayPred, specValidLeave, hemp]
    by_cases h1 : truthy e.firstName
    · by_cases h2 : truthy l.ltype
      · by_cases h3 : truthy l.reason
        · simp [h1, h2, h3, leaveSearchStr_eq l e hemp]
        · simp [h1, h2, h3]
      · simp [h1, h2]
    · simp [h1]

theorem fetchLeaves_ok_dataIssues (st : LeaveListState) (ls : List Leave) :
    (fetchLeaves st (.resp true ls)).dataIssues
      = ls.filter fun l => l.employee.isNone := by
  by_cases h : (ls.filter fun l => l.employee.isNone).length > 0
  · simp [fetchLeaves, h]
  · have hnil : (ls.filter fun l => l.employee.isNone) = [] :=
      List.length_eq_zero.1 (by omega)
    simp [fetchLeaves, h, hnil]

/-- C1 (counterexample).  The claim says every record invalid under the
full validity invariant is enumerated in the data-integrity warning and
the warning is set whenever the invalid subset is non-empty.  A record
whose employee object exists but lacks a first name is invalid, yet the
fetch records an empty warning list for it, because the warning only
collects records with no employee object at all. -/
theorem leave_warning_counterexample :
    specValidLeave demoNoNameLeave = false ∧
    (fetchLeaves initLeaveListState (.resp true [demoNoNameLeave])).leaves
      = [demoNoNameLeave] ∧
    (fetchLeaves initLeaveListState (.resp true [demoNoNameLeave])).dataIssues
      = [] := by
  decide

/-- C1 (amended).  After a successful fetch: every record in the display
sequence satisfies the full validity invariant; the data-integrity warning
enumerates exactly the records whose employee reference is null (a strict
subset of the invalid records in general), and it is empty exactly when no
fetched record has a null employee reference; every warned record is
invalid. -/
theorem leave_partition_warning (st : LeaveListState) (ls : List Leave)
    (search : Str) :
    (∀ l ∈ filteredLeaves (fetchLeaves st (.resp true ls)).leaves search,
      specValidLeave l = true) ∧
    (∀ l, l ∈ (fetchLeaves st (.resp true ls)).dataIssues ↔
      l ∈ ls ∧ l.employee = none) ∧
    ((fetchLeaves st (.resp true ls)).dataIssues = [] ↔
      ∀ l ∈ ls, l.employee ≠ none) ∧
    (∀ l ∈ (fetchLeaves st (.resp true ls)).dataIssues,
      specValidLeave l = false) := by
  have hdi := fetchLeaves_ok_dataIssues st ls
  refine ⟨?_, ?_, ?_, ?_⟩
  · intro l hl
    rcases List.mem_filter.1 hl with ⟨_, hp⟩
    rw [displayPred_eq] at hp
    exact (Bool.and_eq_true _ _ ▸ hp).1
  · intro l
    rw [hdi, List.mem_filter]
    simp [Option.isNone_iff_eq_none]
  · rw [hdi, List.filter_eq_nil_iff]
    simp [Option.isNone_iff_eq_none]
  · intro l hl
    rw [hdi] at hl
    rcases List.mem_filter.1 hl with ⟨_, hnone⟩
    have hn : l.employee = none := Option.isNone_iff_eq_none.1 hnone
    simp [specValidLeave, hn]

/-- C1 (witness).  The partition facts evaluated on a concrete fetch of
one valid and one orphaned record: the orphaned record is enumerated in
the warning. -/
theorem leave_partition_warning_witness :
    demoOrphanLeave ∈
      (fetchLeaves initLeaveListState
        (.resp true [demoValidLeave, demoOrphanLeave])).dataIssues :=
  ((leave_partition_warning initLeaveListState
      [demoValidLeave, demoOrphanLeave] []).2.1 demoOrphanLeave).mpr
    ⟨by decide, rfl⟩

/-- C3 (counterexample).  The claim says every failed fetch yields an
empty display list.  A failed fetch issued from a state already populated
by an earlier successful fetch sets the error but leaves the previous
leaves in place, so the display sequence stays non-empty. -/
theorem fetch_failure_counterexample :
    ((fetchLeaves ⟨[demoValidLeave], false, none, none, []⟩
        (.resp false [])).error).isSome = true ∧
    filteredLeaves
        (fetchLeaves ⟨[demoValidLeave], false, none, none, []⟩
          (.resp false [])).leaves []
      ≠ [] := by
  decide

/-- C3 (amended).  Every transport or service failure during a fetch sets
a user-visible error message and leaves the previously displayed leave
collection unchanged — in particular, a failure from the initial (never
successfully fetched) state displays an empty list.  The model is a total
function, so no failure escapes as an uncaught fault. -/
theorem fetch_failure_state (st : LeaveListState) (ls : List Leave)
    (m : Option Str) (search : Str) :
    ((fetchLeaves st (.resp false ls)).error
        = some (str "Failed to load leave requests") ∧
      (fetchLeaves st (.resp false ls)).leaves = st.leaves ∧
      (fetchLeaves st (.resp false ls)).dataIssues = st.dataIssues) ∧
    ((fetchLeaves st (.thrown m)).error
        = some (orDefault m (str "Failed to load leave requests")) ∧
      (fetchLeaves st (.thrown m)).leaves = st.leaves) ∧
    filteredLeaves (fetchLeaves initLeaveListState
      (.resp false ls)).leaves search = [] ∧
    filteredLeaves (fetchLeaves initLeaveListState
      (.thrown m)).leaves search = [] :=
  ⟨⟨rfl, rfl, rfl⟩, ⟨rfl, rfl⟩, rfl, rfl⟩

/-- C7 (counterexample).  The claim states the match as a substring test
against the plain concatenation of the five fields.  The code joins the
fields with single spaces, so a search text straddling the type-reason
boundary matches the plain concatenation but is not displayed. -/
theorem leave_search_counterexample :
    specValidLeave demoValidLeave = true ∧
    containsSub (lower (plainConcatFields demoValidLeave))
      (lower (str "ckfl")) = true ∧
    demoValidLeave ∉ filteredLeaves [demoValidLeave] (str "ckfl") := by
  decide

/-- C7 (amended).  A valid leave record appears in the display sequence
for a search text exactly when it is in the fetched collection and the
lowercased search text occurs in the lowercased space-separated
concatenation of first name, last name, email, type and reason; the match
is case-insensitive and spans the five fields jointly. -/
theorem leave_search_match (leaves : List Leave) (search : Str) (l : Leave)
    (hv : specValidLeave l = true) :
    l ∈ filteredLeaves leaves search ↔
      l ∈ leaves ∧
      containsSub (lower (spaceConcatFields l)) (lower search) = true := by
  unfold filteredLeaves
  rw [List.mem_filter]
  constructor
  · rintro ⟨hm, hp⟩
    rw [displayPred_eq] at hp
    exact ⟨hm, (Bool.and_eq_true _ _ ▸ hp).2⟩
  · rintro ⟨hm, hc⟩
    refine ⟨hm, ?_⟩
    rw [displayPred_eq, hv, hc]
    rfl

/-- C7 (witness).  The search "DoE" matches the record of John Doe
regardless of case. -/
theorem leave_search_match_witness :
    demoValidLeave ∈ filteredLeaves [demoValidLeave] (str "DoE") :=
  (leave_search_match [demoValidLeave] (str "DoE") demoValidLeave
    (by decide)).mpr ⟨by decide, by decide⟩

/-- C8 (counterexample).  The claim says every cleanup failure surfaces an
error.  A cleanup response with the success flag false leaves the error
unset (the handler has no else branch for it), even while an
invalid-record warning is pending. -/
theorem cleanup_failure_counterexample :
    (handleCleanup ⟨[], false, none, none, [demoOrphanLeave]⟩
        (.resp false 0)).state.error = none ∧
    (handleCleanup ⟨[], false, none, none, [demoOrphanLeave]⟩
        (.resp false 0)).state.dataIssues = [demoOrphanLeave] := by
  decide

/-- C8 (amended).  Cleanup success empties the warning records, records
the removed count in a success notice auto-cleared after 5000
milliseconds, leaves the fetched collection untouched and triggers a
re-list; a thrown cleanup failure surfaces an error and leaves the
warning records untouched; a cleanup response with the success flag false
changes nothing except the loading flag and surfaces no error. -/
theorem cleanup_state (st : LeaveListState) (n : Nat) (m : Option Str) :
    ((handleCleanup st (.resp true n)).state.dataIssues = [] ∧
      (handleCleanup st (.resp true n)).state.notice
        = some (cleanupSuccessMsg n, 5000) ∧
      containsSub (cleanupSuccessMsg n) (natStr n) = true ∧
      (handleCleanup st (.resp true n)).state.leaves = st.leaves ∧
      (handleCleanup st (.resp true n)).refetch = true) ∧
    ((handleCleanup st (.thrown m)).state.error
        = some (orDefault m (str "Failed to clean up orphaned records")) ∧
      (handleCleanup st (.thrown m)).state.dataIssues = st.dataIssues ∧
      (handleCleanup st (.thrown m)).refetch = false) ∧
    ((handleCleanup st (.resp false n)).state = { st with loading := false } ∧
      (handleCleanup st (.resp false n)).state.error = st.error ∧
      (handleCleanup st (.resp false n)).refetch = false) := by
  refine ⟨⟨rfl, rfl, ?_, rfl, rfl⟩, ⟨rfl, rfl, rfl⟩, ⟨rfl, rfl, rfl⟩⟩
  simp only [cleanupSuccessMsg]
  exact containsSub_sandwich _ _ _
